import Mathlib

/-!
Verification of the real-time presence and relay engine
(`configurations/socket.js` and the socket pushes in
`services/chatService.js` / `services/messageService.js`).

The source keeps a global in-memory object
`users : { userId -> { socketIds: Set, firstName, lastName, x, y, tableId } }`.
JavaScript objects with string keys preserve insertion order, so the map is
embedded as an association list in insertion order; a JavaScript `Set` is
embedded as a duplicate-free list in insertion order.  Payload fields that may
be `undefined` after destructuring are embedded as `Option`.  Fallible
database calls are embedded with an explicit `dbOk : Bool` flag: `true` means
the awaited persistence call succeeded, `false` means it threw (and was caught
by the handler's `try/catch`).
-/

namespace SocketRelay

abbrev SocketId := String
abbrev UserKey := String

/-- JavaScript property-key coercion: `users[undefined]` accesses the key
`"undefined"`, so a missing `userId` in a payload is coerced to that string. -/
def jsKey : Option String → UserKey
  | some s => s
  | none => "undefined"

/-- JavaScript `v || d` for strings: `undefined` and the empty string are
falsy, anything else is returned unchanged. -/
def orElseStr (v : Option String) (d : String) : String :=
  match v with
  | some s => if s = "" then d else s
  | none => d

/-- JavaScript `typeof x === 'number' ? x : 100` from the `registerUser`
handler. -/
def numOr100 : Option Int → Int
  | some n => n
  | none => 100

/-- One value of the in-memory `users` map: `socketIds` is a JS `Set` (here a
duplicate-free list in insertion order); `x`/`y` are created as numbers but the
`userMoved` handler can overwrite them with raw (possibly `undefined`) payload
values, hence `Option Int`. -/
structure Entry where
  socketIds : List SocketId
  firstName : String
  lastName : String
  x : Option Int
  y : Option Int
  tableId : Option String
  deriving Repr, DecidableEq

/-- The global `users` object: userId key to entry, in insertion order. -/
abbrev Users := List (UserKey × Entry)

/-- `obj[k]` on a JS object embedded as an association list. -/
def lookupKey {α : Type} : List (String × α) → String → Option α
  | [], _ => none
  | (k, v) :: rest, u => if k = u then some v else lookupKey rest u

/-- `obj[k] = v` on a JS object: replaces the value in place (key order kept)
when the key exists, otherwise appends the new key at the end. -/
def setKey {α : Type} : List (String × α) → String → α → List (String × α)
  | [], u, v => [(u, v)]
  | (k, w) :: rest, u, v =>
    if k = u then (u, v) :: rest else (k, w) :: setKey rest u v

/-- JS `Set.prototype.add`: no duplicate is inserted, insertion order kept. -/
def addSocket (s : List SocketId) (sid : SocketId) : List SocketId :=
  if sid ∈ s then s else s ++ [sid]

/-- §4.1 `connectionsFor(userId)`: the handlers read it as
`users[userId]?.socketIds` with an empty result when the user is offline. -/
def connectionsFor (us : Users) (u : UserKey) : List SocketId :=
  match lookupKey us u with
  | some e => e.socketIds
  | none => []

/-- Modelled from the spec: `isUserOnline(userId) -> bool` (§6) is part of the
contract exposed to the REST layer but has no implementation under `src/`; per
§3 a user is online exactly while their registry entry exists. -/
def isUserOnline (us : Users) (u : UserKey) : Bool :=
  (lookupKey us u).isSome

/-- One mirrored record of the durable `HangoutUser` collection. -/
structure HangoutRec where
  x : Option Int
  y : Option Int
  tableId : Option String
  deriving Repr, DecidableEq

abbrev HangoutStore := List (UserKey × HangoutRec)

/-- One item of the `existingUsers` roster payload; `uid` is the `_id` field
of the emitted object. -/
structure RosterItem where
  uid : UserKey
  firstName : String
  lastName : String
  x : Option Int
  y : Option Int
  tableId : Option String
  deriving Repr, DecidableEq

/-- The roster built in the `registerUser` handler from `Object.entries(users)`
after the new entry has been stored. -/
def rosterOf (us : Users) : List RosterItem :=
  us.map fun p =>
    { uid := p.1, firstName := p.2.firstName, lastName := p.2.lastName,
      x := p.2.x, y := p.2.y, tableId := p.2.tableId }

/-- Payload of the `userJoined` broadcast: raw payload identity fields, entry
coordinates. -/
structure UserJoined where
  userId : Option String
  firstName : Option String
  lastName : Option String
  x : Option Int
  y : Option Int
  deriving Repr, DecidableEq

/-- The entry value stored by the `registerUser` handler: the existing entry if
present (display fields untouched), otherwise a fresh entry with defaults, in
both cases with `socket.id` added to its socket set. -/
def registerEntry (us : Users) (userId firstName lastName : Option String)
    (x y : Option Int) (sid : SocketId) : Entry :=
  let base : Entry :=
    match lookupKey us (jsKey userId) with
    | some e => e
    | none =>
      { socketIds := [], firstName := orElseStr firstName "Anon",
        lastName := orElseStr lastName "", x := some (numOr100 x),
        y := some (numOr100 y), tableId := none }
  { base with socketIds := addSocket base.socketIds sid }

/-- Everything the `registerUser` handler produces: the new `users` map, the
durable store after the best-effort upsert, the `existingUsers` roster (emitted
with `socket.emit`, i.e. to the registering connection only), and the
`userJoined` payload (emitted with `socket.broadcast.emit`, i.e. to every other
connection). -/
structure RegisterResult where
  users : Users
  hangout : HangoutStore
  existingUsers : List RosterItem
  userJoined : UserJoined
  deriving Repr, DecidableEq

/-- The `registerUser` handler.  The registry mutation precedes the persistence
call; the persistence call overwrites `x`, `y` and sets `tableId` to `null`;
its failure is caught and both emits happen regardless. -/
def registerUser (us : Users) (hg : HangoutStore) (dbOk : Bool)
    (userId firstName lastName : Option String) (x y : Option Int)
    (sid : SocketId) : RegisterResult :=
  let entry := registerEntry us userId firstName lastName x y sid
  let us' := setKey us (jsKey userId) entry
  { users := us'
    hangout :=
      if dbOk then
        setKey hg (jsKey userId) { x := entry.x, y := entry.y, tableId := none }
      else hg
    existingUsers := rosterOf us'
    userJoined :=
      { userId := userId, firstName := firstName, lastName := lastName,
        x := entry.x, y := entry.y } }

/-- Payload of the `userMoved` broadcast (raw payload fields). -/
structure MovedPayload where
  userId : Option String
  x : Option Int
  y : Option Int
  deriving Repr, DecidableEq

/-- Result of the `userMoved` handler; `broadcast` is always emitted (to every
other connection) — the handler has no validation and broadcasts before the
try/catch-wrapped durable write. -/
structure MovedResult where
  users : Users
  hangout : HangoutStore
  broadcast : MovedPayload
  deriving Repr, DecidableEq

/-- The `userMoved` handler: in-place coordinate update when the entry exists,
unconditional broadcast, best-effort upsert of the durable record. -/
def userMoved (us : Users) (hg : HangoutStore) (dbOk : Bool)
    (userId : Option String) (x y : Option Int) : MovedResult :=
  let k := jsKey userId
  { users :=
      match lookupKey us k with
      | some e => setKey us k { e with x := x, y := y }
      | none => us
    hangout :=
      if dbOk then
        match lookupKey hg k with
        | some r => setKey hg k { r with x := x, y := y }
        | none => setKey hg k { x := x, y := y, tableId := none }
      else hg
    broadcast := { userId := userId, x := x, y := y } }

/-- Payload of the `tableJoined` broadcast (raw payload fields). -/
structure JoinPayload where
  userId : Option String
  tableId : Option String
  deriving Repr, DecidableEq

/-- Result of the `joinTable` handler; `broadcast` is always emitted. -/
structure JoinResult where
  users : Users
  hangout : HangoutStore
  broadcast : JoinPayload
  deriving Repr, DecidableEq

/-- The `joinTable` handler: room update when the entry exists, unconditional
`tableJoined` broadcast, best-effort upsert (schema defaults `x = y = 100` on
create). -/
def joinTable (us : Users) (hg : HangoutStore) (dbOk : Bool)
    (userId : Option String) (tableId : Option String) : JoinResult :=
  let k := jsKey userId
  { users :=
      match lookupKey us k with
      | some e => setKey us k { e with tableId := tableId }
      | none => us
    hangout :=
      if dbOk then
        match lookupKey hg k with
        | some r => setKey hg k { r with tableId := tableId }
        | none => setKey hg k { x := some 100, y := some 100, tableId := tableId }
      else hg
    broadcast := { userId := userId, tableId := tableId } }

/-- One document of the durable `Message` collection (the fields the relay
reads or writes). -/
structure Msg where
  chatId : String
  senderId : String
  content : String
  isReadBy : List String
  deriving Repr, DecidableEq

/-- `Message.updateMany({chatId, isReadBy: {$ne: userId}, senderId: {$ne:
userId}}, {$push: {isReadBy: userId}})`: on array fields, `$ne` matches the
documents whose array does not contain the value. -/
def markRead (msgs : List Msg) (chatId userId : String) : List Msg :=
  msgs.map fun m =>
    if m.chatId = chatId ∧ m.senderId ≠ userId ∧ userId ∉ m.isReadBy then
      { m with isReadBy := m.isReadBy ++ [userId] }
    else m

/-- Result of the `markMessagesAsRead` handler: the message store after the
durable update and the sockets that receive the `messagesRead {chatId, userId}`
push. -/
structure MarkReadResult where
  messages : List Msg
  pushTargets : List SocketId
  deriving Repr, DecidableEq

/-- The `markMessagesAsRead` handler.  Both the `updateMany` and the emit loop
sit inside one `try` block, the emit after the awaited update: when the durable
write throws, the error is caught (logged) and the push loop is never reached.
The push goes to `users[userId]?.socketIds`, i.e. to the live connections of
the user named in the payload. -/
def markMessagesAsRead (us : Users) (msgs : List Msg) (dbOk : Bool)
    (chatId userId : String) : MarkReadResult :=
  if dbOk then
    { messages := markRead msgs chatId userId
      pushTargets := connectionsFor us userId }
  else
    { messages := msgs, pushTargets := [] }

/-- The video-signalling `relay(event, data)` closure, shared by
`video-offer`, `video-answer`, `video-ice-candidate` and `video-end`: when
`users[data.to]` is absent the event is dropped (a log line only, no error,
no retry); otherwise the payload is emitted to every socket in the entry.
The returned list is the set of receiving sockets. -/
def relay (us : Users) (toId : Option String) : List SocketId :=
  match lookupKey us (jsKey toId) with
  | none => []
  | some e => e.socketIds

/-- `notifyUserFollowed(followedUserId, payload)`: drops the push (log line
only, no error) when the entry is absent or its socket set is empty, otherwise
emits `userFollowed` to every socket of the entry. -/
def notifyUserFollowed (us : Users) (followedUserId : UserKey) : List SocketId :=
  match lookupKey us followedUserId with
  | none => []
  | some e => if e.socketIds = [] then [] else e.socketIds

/-- The `disconnect` handler: scan `Object.entries(users)` in order, remove
`socket.id` from the first entry containing it and stop (`break`); when that
drains the entry, delete the entry and broadcast `userLeft {userId}` — the
second component is `some uid` exactly when that single broadcast happens. -/
def disconnect : Users → SocketId → Users × Option UserKey
  | [], _ => ([], none)
  | (k, e) :: rest, sid =>
    if sid ∈ e.socketIds then
      let s' := e.socketIds.erase sid
      if s' = [] then (rest, some k)
      else ((k, { e with socketIds := s' }) :: rest, none)
    else
      let r := disconnect rest sid
      ((k, e) :: r.1, r.2)

/-- The whole mutable state the handlers touch: the in-memory registry and the
two durable collections. -/
structure ServerState where
  users : Users
  hangout : HangoutStore
  messages : List Msg
  deriving Repr, DecidableEq

/-- One inbound event of the socket layer; each event that performs a durable
write carries the outcome of that write. -/
inductive Event where
  | registerUser (dbOk : Bool) (userId firstName lastName : Option String)
      (x y : Option Int) (sid : SocketId)
  | userMoved (dbOk : Bool) (userId : Option String) (x y : Option Int)
  | joinTable (dbOk : Bool) (userId : Option String) (tableId : Option String)
  | tableCreated
  | markMessagesAsRead (dbOk : Bool) (chatId userId : String)
  | videoRelay (toId : Option String)
  | disconnect (sid : SocketId)
  deriving Repr, DecidableEq

/-- State transition of one inbound event (`tableCreated` and the video relays
only emit, they never change state). -/
def step (s : ServerState) : Event → ServerState
  | .registerUser dbOk u f l x y sid =>
    let r := registerUser s.users s.hangout dbOk u f l x y sid
    { s with users := r.users, hangout := r.hangout }
  | .userMoved dbOk u x y =>
    let r := userMoved s.users s.hangout dbOk u x y
    { s with users := r.users, hangout := r.hangout }
  | .joinTable dbOk u t =>
    let r := joinTable s.users s.hangout dbOk u t
    { s with users := r.users, hangout := r.hangout }
  | .tableCreated => s
  | .markMessagesAsRead dbOk c u =>
    { s with messages := (markMessagesAsRead s.users s.messages dbOk c u).messages }
  | .videoRelay _ => s
  | .disconnect sid =>
    { s with users := (disconnect s.users sid).1 }

/-- Initial state: empty registry (the process just started). -/
def initState : ServerState := ⟨[], [], []⟩

/-- State after a sequence of inbound events. -/
def run (evs : List Event) : ServerState :=
  evs.foldl step initState

/-- Reading the `socketId` property of a registry entry.  Entries are created
in the `registerUser` handler with exactly the fields
`socketIds, firstName, lastName, x, y, tableId` and no handler ever sets a
scalar `socketId` property, so `user?.socketId` in the chat/message services is
always `undefined`; embedded as the constant `none`. -/
def Entry.socketId (_ : Entry) : Option SocketId := none

/-- The socket push loop of `createChatService`: for each participant, look up
`users[participantId]` and emit `chatCreated` to `user.socketId` only when that
property is truthy.  Returns the receiving sockets. -/
def chatCreatedTargets (us : Users) (participants : List UserKey) : List SocketId :=
  participants.filterMap fun pid =>
    match lookupKey us pid with
    | some user => user.socketId
    | none => none

/-- The socket push loop of `createGroupChatService` (same `u?.socketId` guard
as `createChatService`). -/
def groupChatCreatedTargets (us : Users) (participants : List UserKey) : List SocketId :=
  participants.filterMap fun pid =>
    match lookupKey us pid with
    | some u => u.socketId
    | none => none

/-- The socket push loop of `sendMessageService`: for each chat participant,
emit `messageCreated` to `userSocketData.socketId` when truthy. -/
def sendMessageTargets (us : Users) (participants : List UserKey) : List SocketId :=
  participants.filterMap fun pid =>
    match lookupKey us pid with
    | some userSocketData => userSocketData.socketId
    | none => none

/-- The user keys whose entry currently contains the given connection id. -/
def ownersOf (us : Users) (sid : SocketId) : List UserKey :=
  (us.filter fun p => decide (sid ∈ p.2.socketIds)).map Prod.fst

/-- The (connection id, coerced user key) pair of a registration event. -/
def regPair : Event → Option (SocketId × UserKey)
  | .registerUser _ userId _ _ _ _ sid => some (sid, jsKey userId)
  | _ => none

/-- An event trace is registration-consistent when no connection id registers
under two different user keys. -/
abbrev consistentRegs (evs : List Event) : Prop :=
  ∀ p ∈ evs.filterMap regPair, ∀ q ∈ evs.filterMap regPair, p.1 = q.1 → p.2 = q.2

/-! ### Basic lemmas about the association-list and set operations -/

theorem mem_setKey {α : Type} (k : String) (v : α) :
    ∀ l : List (String × α), ∀ p ∈ setKey l k v, p = (k, v) ∨ p ∈ l := by
  intro l
  induction l with
  | nil =>
    intro p hp
    simp only [setKey, List.mem_singleton] at hp
    exact Or.inl hp
  | cons hd tl ih =>
    obtain ⟨k₀, w₀⟩ := hd
    intro p hp
    simp only [setKey] at hp
    by_cases hk : k₀ = k
    · rw [if_pos hk] at hp
      rcases List.mem_cons.mp hp with h | h
      · exact Or.inl h
      · exact Or.inr (List.mem_cons_of_mem _ h)
    · rw [if_neg hk] at hp
      rcases List.mem_cons.mp hp with h | h
      · exact Or.inr (h ▸ List.mem_cons_self _ _)
      · rcases ih p h with h' | h'
        · exact Or.inl h'
        · exact Or.inr (List.mem_cons_of_mem _ h')

theorem lookupKey_mem {α : Type} (k : String) (v : α) :
    ∀ l : List (String × α), lookupKey l k = some v → (k, v) ∈ l := by
  intro l
  induction l with
  | nil => intro h; simp [lookupKey] at h
  | cons hd tl ih =>
    obtain ⟨k₀, w₀⟩ := hd
    intro h
    simp only [lookupKey] at h
    by_cases hk : k₀ = k
    · rw [if_pos hk] at h
      obtain rfl := Option.some.inj h
      subst hk
      exact List.mem_cons_self _ _
    · rw [if_neg hk] at h
      exact List.mem_cons_of_mem _ (ih h)

theorem setKey_of_lookup_none {α : Type} (k : String) (v : α) :
    ∀ l : List (String × α), lookupKey l k = none → setKey l k v = l ++ [(k, v)] := by
  intro l
  induction l with
  | nil => intro _; rfl
  | cons hd tl ih =>
    obtain ⟨k₀, w₀⟩ := hd
    intro h
    simp only [lookupKey] at h
    by_cases hk : k₀ = k
    · rw [if_pos hk] at h; cases h
    · rw [if_neg hk] at h
      simp only [setKey, if_neg hk, List.cons_append, List.cons.injEq, true_and]
      exact ih h

theorem lookupKey_setKey_self {α : Type} (k : String) (v : α) :
    ∀ l : List (String × α), lookupKey (setKey l k v) k = some v := by
  intro l
  induction l with
  | nil => simp [setKey, lookupKey]
  | cons hd tl ih =>
    obtain ⟨k₀, w₀⟩ := hd
    by_cases hk : k₀ = k
    · simp [setKey, if_pos hk, lookupKey]
    · simp [setKey, if_neg hk, lookupKey, hk, ih]

theorem lookupKey_eq_none_of_not_mem_keys {α : Type} (k : String) :
    ∀ l : List (String × α), k ∉ l.map Prod.fst → lookupKey l k = none := by
  intro l
  induction l with
  | nil => intro _; rfl
  | cons hd tl ih =>
    obtain ⟨k₀, w₀⟩ := hd
    intro h
    simp only [List.map_cons, List.mem_cons] at h
    push_neg at h
    have hk : k₀ ≠ k := fun hkk => h.1 hkk.symm
    simp only [lookupKey, if_neg hk]
    exact ih h.2

theorem mem_addSocket (s : List SocketId) (c sid : SocketId)
    (h : sid ∈ addSocket s c) : sid ∈ s ∨ sid = c := by
  unfold addSocket at h
  split at h
  · exact Or.inl h
  · rcases List.mem_append.mp h with h' | h'
    · exact Or.inl h'
    · exact Or.inr (List.mem_singleton.mp h')

theorem addSocket_ne_nil (s : List SocketId) (c : SocketId) : addSocket s c ≠ [] := by
  unfold addSocket
  split
  · rename_i hc
    intro h
    rw [h] at hc
    exact List.not_mem_nil c hc
  · simp

theorem mem_connectionsFor (us : Users) (k : UserKey) (sid : SocketId)
    (h : sid ∈ connectionsFor us k) :
    ∃ e : Entry, lookupKey us k = some e ∧ sid ∈ e.socketIds := by
  unfold connectionsFor at h
  cases hl : lookupKey us k with
  | none => rw [hl] at h; cases h
  | some e => rw [hl] at h; exact ⟨e, rfl, h⟩

theorem registerEntry_socketIds (us : Users) (userId firstName lastName : Option String)
    (x y : Option Int) (sid : SocketId) :
    (registerEntry us userId firstName lastName x y sid).socketIds
      = addSocket (connectionsFor us (jsKey userId)) sid := by
  unfold registerEntry connectionsFor
  cases lookupKey us (jsKey userId) <;> rfl

theorem registerUser_users (us : Users) (hg : HangoutStore) (dbOk : Bool)
    (userId firstName lastName : Option String) (x y : Option Int) (sid : SocketId) :
    (registerUser us hg dbOk userId firstName lastName x y sid).users
      = setKey us (jsKey userId) (registerEntry us userId firstName lastName x y sid) := rfl

theorem registerUser_existingUsers (us : Users) (hg : HangoutStore) (dbOk : Bool)
    (userId firstName lastName : Option String) (x y : Option Int) (sid : SocketId) :
    (registerUser us hg dbOk userId firstName lastName x y sid).existingUsers
      = rosterOf (setKey us (jsKey userId) (registerEntry us userId firstName lastName x y sid)) := rfl

theorem userMoved_users (us : Users) (hg : HangoutStore) (dbOk : Bool)
    (userId : Option String) (x y : Option Int) :
    (userMoved us hg dbOk userId x y).users
      = match lookupKey us (jsKey userId) with
        | some e => setKey us (jsKey userId) { e with x := x, y := y }
        | none => us := rfl

theorem joinTable_users (us : Users) (hg : HangoutStore) (dbOk : Bool)
    (userId : Option String) (tableId : Option String) :
    (joinTable us hg dbOk userId tableId).users
      = match lookupKey us (jsKey userId) with
        | some e => setKey us (jsKey userId) { e with tableId := tableId }
        | none => us := rfl

theorem disconnect_mem (sid : SocketId) :
    ∀ us : Users, ∀ p ∈ (disconnect us sid).1,
      p ∈ us ∨ ∃ e : Entry, (p.1, e) ∈ us ∧
        p.2.socketIds = e.socketIds.erase sid ∧ p.2.socketIds ≠ [] := by
  intro us
  induction us with
  | nil => intro p hp; simp [disconnect] at hp
  | cons hd tl ih =>
    obtain ⟨k, e⟩ := hd
    intro p hp
    by_cases hmem : sid ∈ e.socketIds
    · by_cases hnil : e.socketIds.erase sid = []
      · simp only [disconnect, if_pos hmem, if_pos hnil] at hp
        exact Or.inl (List.mem_cons_of_mem _ hp)
      · simp only [disconnect, if_pos hmem, if_neg hnil] at hp
        rcases List.mem_cons.mp hp with h | h
        · subst h
          exact Or.inr ⟨e, List.mem_cons_self _ _, rfl, hnil⟩
        · exact Or.inl (List.mem_cons_of_mem _ h)
    · simp only [disconnect, if_neg hmem] at hp
      rcases List.mem_cons.mp hp with h | h
      · exact Or.inl (h ▸ List.mem_cons_self _ _)
      · rcases ih p h with h' | ⟨e', he', hs, hne⟩
        · exact Or.inl (List.mem_cons_of_mem _ h')
        · exact Or.inr ⟨e', List.mem_cons_of_mem _ he', hs, hne⟩

theorem run_append (evs : List Event) (ev : Event) :
    run (evs ++ [ev]) = step (run evs) ev := by
  simp [run, List.foldl_append]

theorem step_users_registerUser (s : ServerState) (dbOk : Bool)
    (userId fn ln : Option String) (x y : Option Int) (sid : SocketId) :
    (step s (.registerUser dbOk userId fn ln x y sid)).users
      = setKey s.users (jsKey userId) (registerEntry s.users userId fn ln x y sid) := rfl

theorem step_users_userMoved (s : ServerState) (dbOk : Bool)
    (userId : Option String) (x y : Option Int) :
    (step s (.userMoved dbOk userId x y)).users
      = (userMoved s.users s.hangout dbOk userId x y).users := rfl

theorem step_users_joinTable (s : ServerState) (dbOk : Bool)
    (userId : Option String) (tableId : Option String) :
    (step s (.joinTable dbOk userId tableId)).users
      = (joinTable s.users s.hangout dbOk userId tableId).users := rfl

theorem step_users_tableCreated (s : ServerState) :
    (step s .tableCreated).users = s.users := rfl

theorem step_users_markRead (s : ServerState) (dbOk : Bool) (c u : String) :
    (step s (.markMessagesAsRead dbOk c u)).users = s.users := rfl

theorem step_users_videoRelay (s : ServerState) (toId : Option String) :
    (step s (.videoRelay toId)).users = s.users := rfl

theorem step_users_disconnect (s : ServerState) (sid : SocketId) :
    (step s (.disconnect sid)).users = (disconnect s.users sid).1 := rfl

/-- Every connection id found in an entry after one step either was already in
an entry of that same user, or was just added by this very registration
event. -/
theorem step_socket_origin (s : ServerState) (ev : Event) (p : UserKey × Entry)
    (hp : p ∈ (step s ev).users) (sid : SocketId) (hsid : sid ∈ p.2.socketIds) :
    (∃ e : Entry, (p.1, e) ∈ s.users ∧ sid ∈ e.socketIds) ∨ regPair ev = some (sid, p.1) := by
  cases ev with
  | registerUser dbOk userId fn ln x y sid₀ =>
    rw [step_users_registerUser] at hp
    rcases mem_setKey _ _ _ p hp with h | h
    · have h1 : p.1 = jsKey userId := by rw [h]
      have h2 : p.2.socketIds = addSocket (connectionsFor s.users (jsKey userId)) sid₀ := by
        rw [h, registerEntry_socketIds]
      rw [h2] at hsid
      rcases mem_addSocket _ _ _ hsid with hs | hs
      · rcases mem_connectionsFor _ _ _ hs with ⟨e, hl, he⟩
        refine Or.inl ⟨e, ?_, he⟩
        rw [h1]
        exact lookupKey_mem _ _ _ hl
      · refine Or.inr ?_
        simp only [regPair]
        rw [h1, hs]
    · exact Or.inl ⟨p.2, h, hsid⟩
  | userMoved dbOk userId x y =>
    rw [step_users_userMoved, userMoved_users] at hp
    cases hl : lookupKey s.users (jsKey userId) with
    | none =>
      rw [hl] at hp
      exact Or.inl ⟨p.2, hp, hsid⟩
    | some e =>
      rw [hl] at hp
      rcases mem_setKey _ _ _ p hp with h | h
      · have h1 : p.1 = jsKey userId := by rw [h]
        have h2 : p.2.socketIds = e.socketIds := by rw [h]
        refine Or.inl ⟨e, ?_, h2 ▸ hsid⟩
        rw [h1]
        exact lookupKey_mem _ _ _ hl
      · exact Or.inl ⟨p.2, h, hsid⟩
  | joinTable dbOk userId tableId =>
    rw [step_users_joinTable, joinTable_users] at hp
    cases hl : lookupKey s.users (jsKey userId) with
    | none =>
      rw [hl] at hp
      exact Or.inl ⟨p.2, hp, hsid⟩
    | some e =>
      rw [hl] at hp
      rcases mem_setKey _ _ _ p hp with h | h
      · have h1 : p.1 = jsKey userId := by rw [h]
        have h2 : p.2.socketIds = e.socketIds := by rw [h]
        refine Or.inl ⟨e, ?_, h2 ▸ hsid⟩
        rw [h1]
        exact lookupKey_mem _ _ _ hl
      · exact Or.inl ⟨p.2, h, hsid⟩
  | tableCreated =>
    rw [step_users_tableCreated] at hp
    exact Or.inl ⟨p.2, hp, hsid⟩
  | markMessagesAsRead dbOk c u =>
    rw [step_users_markRead] at hp
    exact Or.inl ⟨p.2, hp, hsid⟩
  | videoRelay toId =>
    rw [step_users_videoRelay] at hp
    exact Or.inl ⟨p.2, hp, hsid⟩
  | disconnect sid₀ =>
    rw [step_users_disconnect] at hp
    rcases disconnect_mem _ _ p hp with h | ⟨e, he, hs, _⟩
    · exact Or.inl ⟨p.2, h, hsid⟩
    · exact Or.inl ⟨e, he, List.mem_of_mem_erase (hs ▸ hsid)⟩

/-- One step preserves non-emptiness of every entry's socket set. -/
theorem step_entries_ne_nil (s : ServerState) (ev : Event)
    (ih : ∀ p ∈ s.users, p.2.socketIds ≠ []) :
    ∀ p ∈ (step s ev).users, p.2.socketIds ≠ [] := by
  intro p hp
  cases ev with
  | registerUser dbOk userId fn ln x y sid₀ =>
    rw [step_users_registerUser] at hp
    rcases mem_setKey _ _ _ p hp with h | h
    · have h2 : p.2.socketIds = addSocket (connectionsFor s.users (jsKey userId)) sid₀ := by
        rw [h, registerEntry_socketIds]
      rw [h2]
      exact addSocket_ne_nil _ _
    · exact ih p h
  | userMoved dbOk userId x y =>
    rw [step_users_userMoved, userMoved_users] at hp
    cases hl : lookupKey s.users (jsKey userId) with
    | none =>
      rw [hl] at hp
      exact ih p hp
    | some e =>
      rw [hl] at hp
      rcases mem_setKey _ _ _ p hp with h | h
      · have h2 : p.2.socketIds = e.socketIds := by rw [h]
        rw [h2]
        exact ih (jsKey userId, e) (lookupKey_mem _ _ _ hl)
      · exact ih p h
  | joinTable dbOk userId tableId =>
    rw [step_users_joinTable, joinTable_users] at hp
    cases hl : lookupKey s.users (jsKey userId) with
    | none =>
      rw [hl] at hp
      exact ih p hp
    | some e =>
      rw [hl] at hp
      rcases mem_setKey _ _ _ p hp with h | h
      · have h2 : p.2.socketIds = e.socketIds := by rw [h]
        rw [h2]
        exact ih (jsKey userId, e) (lookupKey_mem _ _ _ hl)
      · exact ih p h
  | tableCreated =>
    rw [step_users_tableCreated] at hp
    exact ih p hp
  | markMessagesAsRead dbOk c u =>
    rw [step_users_markRead] at hp
    exact ih p hp
  | videoRelay toId =>
    rw [step_users_videoRelay] at hp
    exact ih p hp
  | disconnect sid₀ =>
    rw [step_users_disconnect] at hp
    rcases disconnect_mem _ _ p hp with h | ⟨e, he, hs, hne⟩
    · exact ih p h
    · exact hne

/-- A connection id held by a user's entry in a reachable state was registered
under that user's key at some point of the trace. -/
theorem socket_origin (evs : List Event) :
    ∀ p ∈ (run evs).users, ∀ sid ∈ p.2.socketIds, (sid, p.1) ∈ evs.filterMap regPair := by
  induction evs using List.reverseRecOn with
  | nil =>
    intro p hp
    simp [run, initState] at hp
  | append_singleton evs ev ih =>
    intro p hp sid hsid
    rw [run_append] at hp
    rw [List.filterMap_append]
    rcases step_socket_origin _ _ p hp sid hsid with ⟨e, he, hse⟩ | h
    · exact List.mem_append_left _ (ih (p.1, e) he sid hse)
    · refine List.mem_append_right _ ?_
      rw [List.mem_filterMap]
      exact ⟨ev, List.mem_singleton_self ev, h⟩

theorem jsKey_some (s : String) : jsKey (some s) = s := rfl

theorem jsKey_none : jsKey none = "undefined" := rfl

theorem socketId_filterMap_nil (us : Users) (ps : List UserKey) :
    (ps.filterMap fun pid =>
      match lookupKey us pid with
      | some user => user.socketId
      | none => none) = [] := by
  rw [List.filterMap_eq_nil_iff]
  intro a _
  cases hl : lookupKey us a with
  | none => simp [hl]
  | some e => simp [hl, Entry.socketId]

/-! ### Claim theorems -/

/-- C4: for the targeted relays (the four video-signalling events share the
single `relay` closure; the follow notification is `notifyUserFollowed`), a
target user with no live connections yields no outbound push; the handlers
return normally (they are total functions here, mirroring the early `return`
after a log line in the source), so no error reaches the caller and nothing is
queued or retried. -/
theorem c4_offline_drop_silent (us : Users) (u : String)
    (h : connectionsFor us u = []) :
    relay us (some u) = [] ∧ notifyUserFollowed us u = [] := by
  unfold connectionsFor at h
  constructor
  · unfold relay
    simp only [jsKey_some]
    cases hl : lookupKey us u with
    | none => rfl
    | some e =>
      rw [hl] at h
      exact h
  · unfold notifyUserFollowed
    cases hl : lookupKey us u with
    | none => rfl
    | some e =>
      rw [hl] at h
      have h' : e.socketIds = [] := h
      show (if e.socketIds = [] then [] else e.socketIds) = []
      rw [if_pos h']

/-- Closed instance for C4: a registry holding only user "A" drops a relay and
a follow notification aimed at the offline user "B". -/
theorem c4_witness :
    connectionsFor [("A", (⟨["sa"], "Anon", "", some 100, some 100, none⟩ : Entry))] "B" = []
    ∧ (relay [("A", (⟨["sa"], "Anon", "", some 100, some 100, none⟩ : Entry))] (some "B") = []
       ∧ notifyUserFollowed [("A", (⟨["sa"], "Anon", "", some 100, some 100, none⟩ : Entry))] "B" = []) :=
  ⟨by decide, c4_offline_drop_silent _ "B" (by decide)⟩

/-- C6: in every state reachable by a trace of inbound events, every existing
registry entry has a non-empty socket set — `registerUser` creates an entry
only together with at least one connection id, and the `disconnect` handler
deletes the entry the moment its socket set drains. -/
theorem c6_entry_nonempty_invariant (evs : List Event) :
    ∀ p ∈ (run evs).users, p.2.socketIds ≠ [] := by
  induction evs using List.reverseRecOn with
  | nil =>
    intro p hp
    simp [run, initState] at hp
  | append_singleton evs ev ih =>
    rw [run_append]
    exact step_entries_ne_nil _ _ ih

/-- Closed instance for C6: the entry created by one registration has a
non-empty socket set. -/
theorem c6_witness :
    ("A", (⟨["c1"], "Anon", "", some 100, some 100, none⟩ : Entry))
      ∈ (run [Event.registerUser true (some "A") none none none none "c1"]).users
    ∧ ("A", (⟨["c1"], "Anon", "", some 100, some 100, none⟩ : Entry)).2.socketIds ≠ [] :=
  ⟨by decide,
   c6_entry_nonempty_invariant [Event.registerUser true (some "A") none none none none "c1"]
     ("A", ⟨["c1"], "Anon", "", some 100, some 100, none⟩) (by decide)⟩

/-- C10: registry entries carry a `socketIds` set and no scalar `socketId`
property, so the `user?.socketId` guards in `createChatService`,
`createGroupChatService` and `sendMessageService` never fire: the
`chatCreated` / `messageCreated` pushes of those services reach zero
connections for every registry state and participant list — in particular even
when every participant is online. -/
theorem c10_socketId_guard_never_fires (us : Users) (ps : List UserKey) :
    (∀ e : Entry, e.socketId = none)
    ∧ chatCreatedTargets us ps = []
    ∧ groupChatCreatedTargets us ps = []
    ∧ sendMessageTargets us ps = [] := by
  refine ⟨fun e => rfl, ?_, ?_, ?_⟩
  · unfold chatCreatedTargets
    exact socketId_filterMap_nil us ps
  · unfold groupChatCreatedTargets
    exact socketId_filterMap_nil us ps
  · unfold sendMessageTargets
    exact socketId_filterMap_nil us ps

/-- Counterexample for C8 as stated: user "B" is online with socket "sb" and
chat "c" holds an unread message from "A", yet when the read-receipt durable
write fails (`updateMany` throws), the `messagesRead` push is skipped — the
emit loop sits inside the same `try` block after the awaited write — while on
success the same state pushes to "sb". -/
theorem c8_counterexample :
    (markMessagesAsRead [("B", (⟨["sb"], "Anon", "", some 100, some 100, none⟩ : Entry))]
        [⟨"c", "A", "hi", ["A"]⟩] false "c" "B").pushTargets = []
    ∧ (markMessagesAsRead [("B", (⟨["sb"], "Anon", "", some 100, some 100, none⟩ : Entry))]
        [⟨"c", "A", "hi", ["A"]⟩] true "c" "B").pushTargets = ["sb"] := by
  decide

/-- C8 amended: a durable-write failure is non-fatal and never rolls back the
in-memory registry change, and the pushes of `registerUser` (roster + join
broadcast), `userMoved` and `joinTable` still occur; the `messagesRead` push of
`markMessagesAsRead`, however, is skipped when its durable write fails (and the
message store is left unchanged). -/
theorem c8_durable_failure_nonfatal (us : Users) (hg : HangoutStore)
    (msgs : List Msg) (u₁ fn ln : Option String) (x₁ y₁ : Option Int) (sid : SocketId)
    (u₂ : Option String) (x₂ y₂ : Option Int)
    (u₃ : Option String) (t₃ : Option String) (c ru : String) :
    ((registerUser us hg false u₁ fn ln x₁ y₁ sid).users
        = (registerUser us hg true u₁ fn ln x₁ y₁ sid).users
      ∧ (registerUser us hg false u₁ fn ln x₁ y₁ sid).existingUsers
        = (registerUser us hg true u₁ fn ln x₁ y₁ sid).existingUsers
      ∧ (registerUser us hg false u₁ fn ln x₁ y₁ sid).userJoined
        = (registerUser us hg true u₁ fn ln x₁ y₁ sid).userJoined)
    ∧ ((userMoved us hg false u₂ x₂ y₂).users = (userMoved us hg true u₂ x₂ y₂).users
      ∧ (userMoved us hg false u₂ x₂ y₂).broadcast = (userMoved us hg true u₂ x₂ y₂).broadcast)
    ∧ ((joinTable us hg false u₃ t₃).users = (joinTable us hg true u₃ t₃).users
      ∧ (joinTable us hg false u₃ t₃).broadcast = (joinTable us hg true u₃ t₃).broadcast)
    ∧ (markMessagesAsRead us msgs false c ru).messages = msgs
    ∧ (markMessagesAsRead us msgs false c ru).pushTargets = [] :=
  ⟨⟨rfl, rfl, rfl⟩, ⟨rfl, rfl⟩, ⟨rfl, rfl⟩, rfl, rfl⟩

/-- Counterexample for C5 as stated: one connection "c1" registers first as
user "A" and then as user "B"; nothing removes "c1" from "A"'s entry, so both
entries hold "c1" simultaneously. -/
theorem c5_counterexample :
    ownersOf (run [Event.registerUser true (some "A") none none none none "c1",
                   Event.registerUser true (some "B") none none none none "c1"]).users "c1"
      = ["A", "B"]
    ∧ ¬ (ownersOf (run [Event.registerUser true (some "A") none none none none "c1",
                        Event.registerUser true (some "B") none none none none "c1"]).users "c1").length ≤ 1 := by
  decide

/-- C5 amended: in every reachable registry state, a connection id belongs to
at most one user entry, provided the trace is registration-consistent (no
connection id ever registers under two different user keys — the code itself
does not enforce this). -/
theorem c5_connection_single_owner (evs : List Event) (H : consistentRegs evs)
    (u₁ u₂ : UserKey) (e₁ e₂ : Entry) (sid : SocketId)
    (h₁ : (u₁, e₁) ∈ (run evs).users) (h₂ : (u₂, e₂) ∈ (run evs).users)
    (hs₁ : sid ∈ e₁.socketIds) (hs₂ : sid ∈ e₂.socketIds) : u₁ = u₂ := by
  have o₁ := socket_origin evs (u₁, e₁) h₁ sid hs₁
  have o₂ := socket_origin evs (u₂, e₂) h₂ sid hs₂
  exact H _ o₁ _ o₂ rfl

/-- Closed instance for C5's amended form on a one-event consistent trace. -/
theorem c5_witness :
    consistentRegs [Event.registerUser true (some "A") none none none none "c1"]
    ∧ "A" = "A" :=
  ⟨by decide,
   c5_connection_single_owner [Event.registerUser true (some "A") none none none none "c1"]
     (by decide) "A" "A"
     ⟨["c1"], "Anon", "", some 100, some 100, none⟩
     ⟨["c1"], "Anon", "", some 100, some 100, none⟩ "c1"
     (by decide) (by decide) (by decide) (by decide)⟩

/-- Counterexample for C2 as stated: after user "A" registers, the `existingUsers`
snapshot sent to a newly-registering user "B" holds both "A" and "B" — the new
entry is stored before the roster is built — not exactly the one
previously-registered user. -/
theorem c2_counterexample :
    ((registerUser (registerUser [] [] true (some "A") none none none none "sa").users [] true
        (some "B") none none none none "sb").existingUsers.map RosterItem.uid = ["A", "B"])
    ∧ ((registerUser (registerUser [] [] true (some "A") none none none none "sa").users [] true
        (some "B") none none none none "sb").existingUsers.map RosterItem.uid ≠ ["A"]) := by
  decide

/-- C2 amended: when a not-yet-online user registers, the `existingUsers`
snapshot (sent only to the registering connection, via `socket.emit`) is the
roster of all previously-registered users — each with its stored display
fields, position and room — followed by the entry of the user just registered:
N previous users give N + 1 items. -/
theorem c2_roster_includes_registrant (us : Users) (hg : HangoutStore) (dbOk : Bool)
    (u : String) (fn ln : Option String) (x y : Option Int) (sid : SocketId)
    (h : lookupKey us u = none) :
    (registerUser us hg dbOk (some u) fn ln x y sid).existingUsers
      = rosterOf us
        ++ [{ uid := u, firstName := orElseStr fn "Anon", lastName := orElseStr ln "",
              x := some (numOr100 x), y := some (numOr100 y), tableId := none }] := by
  rw [registerUser_existingUsers]
  simp only [jsKey_some]
  have he : registerEntry us (some u) fn ln x y sid
      = ⟨[sid], orElseStr fn "Anon", orElseStr ln "", some (numOr100 x),
         some (numOr100 y), none⟩ := by
    simp [registerEntry, jsKey_some, h, addSocket]
  rw [he, setKey_of_lookup_none _ _ _ h]
  simp [rosterOf]

/-- Closed instance for C2's amended form: registering "B" while "A" is online
yields the two-item roster ["A"-item, "B"-item]. -/
theorem c2_witness :
    lookupKey [("A", (⟨["sa"], "Ann", "L", some 1, some 2, some "t"⟩ : Entry))] "B" = none
    ∧ (registerUser [("A", (⟨["sa"], "Ann", "L", some 1, some 2, some "t"⟩ : Entry))] [] true
        (some "B") none none none none "sb").existingUsers
      = rosterOf [("A", (⟨["sa"], "Ann", "L", some 1, some 2, some "t"⟩ : Entry))]
        ++ [{ uid := "B", firstName := orElseStr none "Anon", lastName := orElseStr none "",
              x := some (numOr100 none), y := some (numOr100 none), tableId := none }] :=
  ⟨by decide, c2_roster_includes_registrant _ _ _ _ _ _ _ _ _ (by decide)⟩

/-- Counterexample for C3 as stated: chat "c" has participants "A" (sender of
the only, unread, message) and "B"; when "B" marks messages as read, the
`messagesRead` push goes to "B"'s own live connection "sb" — keyed by the
`userId` of the payload — and not to "A"'s connection "sa". -/
theorem c3_counterexample :
    (markMessagesAsRead
        [("A", (⟨["sa"], "Anon", "", some 100, some 100, none⟩ : Entry)),
         ("B", (⟨["sb"], "Anon", "", some 100, some 100, none⟩ : Entry))]
        [⟨"c", "A", "hi", ["A"]⟩] true "c" "B").pushTargets = ["sb"]
    ∧ "sa" ∉ (markMessagesAsRead
        [("A", (⟨["sa"], "Anon", "", some 100, some 100, none⟩ : Entry)),
         ("B", (⟨["sb"], "Anon", "", some 100, some 100, none⟩ : Entry))]
        [⟨"c", "A", "hi", ["A"]⟩] true "c" "B").pushTargets := by
  decide

/-- C3 amended: when the durable write succeeds, every message of the chat not
sent by the marking user ends up read by that user in the durable store, and
the `messagesRead` push goes exactly to the marking user's own live
connections (syncing that user's other devices), not to the original sender's. -/
theorem c3_read_receipt_behavior (us : Users) (msgs : List Msg) (c u : String) :
    (markMessagesAsRead us msgs true c u).pushTargets = connectionsFor us u
    ∧ ∀ m ∈ (markMessagesAsRead us msgs true c u).messages,
        m.chatId = c → m.senderId ≠ u → u ∈ m.isReadBy := by
  constructor
  · rfl
  · intro m hm hc hs
    have hmsg : (markMessagesAsRead us msgs true c u).messages = markRead msgs c u := rfl
    rw [hmsg] at hm
    unfold markRead at hm
    rcases List.mem_map.mp hm with ⟨m₀, _, hmap⟩
    by_cases hcond : m₀.chatId = c ∧ m₀.senderId ≠ u ∧ u ∉ m₀.isReadBy
    · rw [if_pos hcond] at hmap
      rw [← hmap]
      simp
    · rw [if_neg hcond] at hmap
      subst hmap
      push_neg at hcond
      exact hcond hc hs

/-- Closed instance for C3's amended form: "B" becomes a reader of the message
from "A" in chat "c". -/
theorem c3_witness :
    "B" ∈ (Msg.mk "c" "A" "hi" ["A", "B"]).isReadBy :=
  (c3_read_receipt_behavior
      [("A", ⟨["sa"], "Anon", "", some 100, some 100, none⟩),
       ("B", ⟨["sb"], "Anon", "", some 100, some 100, none⟩)]
      [⟨"c", "A", "hi", ["A"]⟩] "c" "B").2
    ⟨"c", "A", "hi", ["A", "B"]⟩ (by decide) (by decide) (by decide)

/-- Counterexample for C9 as stated: a `userMoved` event without `userId`
still produces an outbound broadcast, and a `registerUser` event without
`userId` creates a registry entry under the coerced key "undefined" and emits
a roster — malformed events are not ignored. -/
theorem c9_counterexample :
    (userMoved [] [] true none (some 5) (some 6)).broadcast = ⟨none, some 5, some 6⟩
    ∧ (registerUser [] [] true none none none none none "s1").users
        = [("undefined", ⟨["s1"], "Anon", "", some 100, some 100, none⟩)]
    ∧ (registerUser [] [] true none none none none none "s1").existingUsers
        = [⟨"undefined", "Anon", "", some 100, some 100, none⟩] := by
  decide

/-- C9 amended: events with a missing `userId` are not validated away but
processed with the field coerced to the key "undefined": `userMoved` always
emits its broadcast (and leaves the registry unchanged only because no entry
matches that key), and `registerUser` creates and stores an entry under
"undefined"; no acknowledgement or error is ever sent back (the handlers only
produce the pushes modelled here). -/
theorem c9_malformed_not_ignored (us : Users) (hg : HangoutStore)
    (x y : Option Int) (sid : SocketId)
    (h : lookupKey us "undefined" = none) :
    (userMoved us hg true none x y).broadcast = ⟨none, x, y⟩
    ∧ (userMoved us hg true none x y).users = us
    ∧ (registerUser us hg true none none none none none sid).users
        = us ++ [("undefined", ⟨[sid], "Anon", "", some 100, some 100, none⟩)] := by
  refine ⟨rfl, ?_, ?_⟩
  · rw [userMoved_users]
    simp only [jsKey_none]
    rw [h]
  · rw [registerUser_users]
    simp only [jsKey_none]
    have he : registerEntry us none none none none none sid
        = ⟨[sid], "Anon", "", some 100, some 100, none⟩ := by
      simp [registerEntry, jsKey_none, h, addSocket, orElseStr, numOr100]
    rw [he, setKey_of_lookup_none _ _ _ h]

/-- Closed instance for C9's amended form with one online user "A". -/
theorem c9_witness :
    lookupKey [("A", (⟨["sa"], "Anon", "", some 100, some 100, none⟩ : Entry))] "undefined" = none
    ∧ ((userMoved [("A", (⟨["sa"], "Anon", "", some 100, some 100, none⟩ : Entry))] [] true
          none (some 5) (some 6)).broadcast = ⟨none, some 5, some 6⟩
       ∧ (userMoved [("A", (⟨["sa"], "Anon", "", some 100, some 100, none⟩ : Entry))] [] true
          none (some 5) (some 6)).users
         = [("A", (⟨["sa"], "Anon", "", some 100, some 100, none⟩ : Entry))]
       ∧ (registerUser [("A", (⟨["sa"], "Anon", "", some 100, some 100, none⟩ : Entry))] [] true
          none none none none none "s1").users
         = [("A", (⟨["sa"], "Anon", "", some 100, some 100, none⟩ : Entry))]
           ++ [("undefined", ⟨["s1"], "Anon", "", some 100, some 100, none⟩)]) :=
  ⟨by decide, c9_malformed_not_ignored _ _ (some 5) (some 6) "s1" (by decide)⟩

/-- C7: registration is idempotent — registering the same (userId,
connectionId) pair twice leaves `connectionsFor(userId)` with exactly one
occurrence of that connection id, and registering a connection for a user
whose entry already exists only adds the connection id: display fields and
position are untouched. -/
theorem c7_idempotent_registration (us : Users) (hg hg₂ : HangoutStore)
    (dbOk dbOk₂ : Bool) (u : String) (fn ln fn₂ ln₂ : Option String)
    (x y x₂ y₂ : Option Int) (c : SocketId)
    (hc : c ∉ connectionsFor us u) :
    ((connectionsFor (registerUser (registerUser us hg dbOk (some u) fn ln x y c).users
        hg₂ dbOk₂ (some u) fn₂ ln₂ x₂ y₂ c).users u).count c = 1)
    ∧ ∀ e : Entry, lookupKey us u = some e →
        lookupKey (registerUser us hg dbOk (some u) fn ln x y c).users u
          = some { e with socketIds := addSocket e.socketIds c } := by
  have hcf : ∀ (us' : Users) (hg' : HangoutStore) (dbOk' : Bool)
      (fn' ln' : Option String) (x' y' : Option Int),
      connectionsFor (registerUser us' hg' dbOk' (some u) fn' ln' x' y' c).users u
        = addSocket (connectionsFor us' u) c := by
    intro us' hg' dbOk' fn' ln' x' y'
    rw [registerUser_users]
    unfold connectionsFor
    simp only [jsKey_some]
    rw [lookupKey_setKey_self]
    exact registerEntry_socketIds us' (some u) fn' ln' x' y' c
  constructor
  · rw [hcf, hcf]
    have h1 : addSocket (connectionsFor us u) c = connectionsFor us u ++ [c] := by
      unfold addSocket
      rw [if_neg hc]
    have h2 : addSocket (connectionsFor us u ++ [c]) c = connectionsFor us u ++ [c] := by
      unfold addSocket
      rw [if_pos (List.mem_append_right _ (List.mem_singleton_self c))]
    rw [h1, h2, List.count_append, List.count_eq_zero.mpr hc]
    simp
  · intro e he
    rw [registerUser_users]
    simp only [jsKey_some]
    have he' : registerEntry us (some u) fn ln x y c
        = { e with socketIds := addSocket e.socketIds c } := by
      simp [registerEntry, jsKey_some, he]
    rw [he', lookupKey_setKey_self]

/-- Closed instance for C7: socket "s1" registered twice for user "A" appears
once in the connection set. -/
theorem c7_witness :
    ("s1" ∉ connectionsFor [("A", (⟨["s0"], "Ann", "L", some 1, some 2, none⟩ : Entry))] "A")
    ∧ ((connectionsFor (registerUser
          (registerUser [("A", (⟨["s0"], "Ann", "L", some 1, some 2, none⟩ : Entry))]
            [] true (some "A") none none none none "s1").users
          [] true (some "A") none none none none "s1").users "A").count "s1" = 1) :=
  ⟨by decide, (c7_idempotent_registration _ _ _ _ _ _ _ _ _ _ _ _ _ _ _ (by decide)).1⟩

/-- C1: a user `U` online with exactly the two live connections `c1`, `c2` —
the socket set holds the unordered pair, in either insertion order — and no
other entry holding either connection: disconnecting `c1` (whichever of the
two goes first) removes it from `U`'s entry, keeps the entry (with
`isUserOnline` still true) and emits no `userLeft`; the subsequent disconnect
of `c2` deletes `U`'s entry and produces exactly one `userLeft {userId := U}`
broadcast (the `some U` outcome). -/
theorem c1_multi_connection_disconnect :
    ∀ (us : Users) (U : UserKey) (e : Entry) (c1 c2 : SocketId),
      (us.map Prod.fst).Nodup →
      lookupKey us U = some e →
      (e.socketIds = [c1, c2] ∨ e.socketIds = [c2, c1]) →
      c1 ≠ c2 →
      (∀ p ∈ us, p.1 ≠ U → c1 ∉ p.2.socketIds ∧ c2 ∉ p.2.socketIds) →
      (disconnect us c1).2 = none
      ∧ lookupKey (disconnect us c1).1 U = some { e with socketIds := [c2] }
      ∧ isUserOnline (disconnect us c1).1 U = true
      ∧ (disconnect (disconnect us c1).1 c2).2 = some U
      ∧ lookupKey (disconnect (disconnect us c1).1 c2).1 U = none := by
  intro us
  induction us with
  | nil =>
    intro U e c1 c2 _ hU
    exact absurd hU (by simp [lookupKey])
  | cons hd tl ih =>
    obtain ⟨k, e₀⟩ := hd
    intro U e c1 c2 hnd hU hS hne hOnly
    simp only [List.map_cons, List.nodup_cons] at hnd
    obtain ⟨hkn, hndtl⟩ := hnd
    by_cases hk : k = U
    · subst hk
      have he : e₀ = e := by
        simp only [lookupKey, if_pos rfl] at hU
        exact Option.some.inj hU
      subst he
      have hc1 : c1 ∈ e₀.socketIds := by
        rcases hS with hS | hS <;> rw [hS] <;> simp
      have her : e₀.socketIds.erase c1 = [c2] := by
        rcases hS with hS | hS
        · rw [hS]
          exact List.erase_cons_head _ _
        · rw [hS]
          simp [List.erase_cons, hne.symm]
      have hner : e₀.socketIds.erase c1 ≠ [] := by
        rw [her]
        simp
      have hd1 : disconnect ((k, e₀) :: tl) c1
          = ((k, { e₀ with socketIds := [c2] }) :: tl, none) := by
        simp only [disconnect, if_pos hc1, her]
        simp
      have hd2 : disconnect ((k, { e₀ with socketIds := [c2] }) :: tl) c2
          = (tl, some k) := by
        simp [disconnect]
      have htl : lookupKey tl k = none :=
        lookupKey_eq_none_of_not_mem_keys _ tl hkn
      refine ⟨?_, ?_, ?_, ?_, ?_⟩
      · rw [hd1]
      · rw [hd1]
        simp [lookupKey]
      · rw [hd1]
        simp [isUserOnline, lookupKey]
      · rw [hd1, hd2]
      · rw [hd1, hd2]
        exact htl
    · have hU' : lookupKey tl U = some e := by
        simp only [lookupKey, if_neg hk] at hU
        exact hU
      have hOnly' : ∀ p ∈ tl, p.1 ≠ U → c1 ∉ p.2.socketIds ∧ c2 ∉ p.2.socketIds :=
        fun p hp => hOnly p (List.mem_cons_of_mem _ hp)
      obtain ⟨hc1n, hc2n⟩ := hOnly (k, e₀) (List.mem_cons_self _ _) hk
      obtain ⟨ih1, ih2, ih3, ih4, ih5⟩ := ih U e c1 c2 hndtl hU' hS hne hOnly'
      have hd1 : disconnect ((k, e₀) :: tl) c1
          = ((k, e₀) :: (disconnect tl c1).1, (disconnect tl c1).2) := by
        simp only [disconnect, if_neg hc1n]
      have hd1a : (disconnect ((k, e₀) :: tl) c1).1 = (k, e₀) :: (disconnect tl c1).1 := by
        rw [hd1]
      have hd1b : (disconnect ((k, e₀) :: tl) c1).2 = (disconnect tl c1).2 := by
        rw [hd1]
      have hd2 : disconnect ((k, e₀) :: (disconnect tl c1).1) c2
          = ((k, e₀) :: (disconnect (disconnect tl c1).1 c2).1,
             (disconnect (disconnect tl c1).1 c2).2) := by
        simp only [disconnect, if_neg hc2n]
      have hd2a : (disconnect ((k, e₀) :: (disconnect tl c1).1) c2).1
          = (k, e₀) :: (disconnect (disconnect tl c1).1 c2).1 := by
        rw [hd2]
      have hd2b : (disconnect ((k, e₀) :: (disconnect tl c1).1) c2).2
          = (disconnect (disconnect tl c1).1 c2).2 := by
        rw [hd2]
      refine ⟨?_, ?_, ?_, ?_, ?_⟩
      · rw [hd1b]
        exact ih1
      · rw [hd1a]
        simp only [lookupKey, if_neg hk]
        exact ih2
      · unfold isUserOnline at ih3 ⊢
        rw [hd1a]
        simp only [lookupKey, if_neg hk]
        exact ih3
      · rw [hd1a, hd2b]
        exact ih4
      · rw [hd1a, hd2a]
        simp only [lookupKey, if_neg hk]
        exact ih5

/-- Closed instance for C1: user "U" online with the socket set in insertion
order ["c2", "c1"] beside an unrelated user "X", and the later-inserted
connection "c1" disconnecting first — the order the unordered-pair claim must
also cover. -/
theorem c1_witness :
    ((([("X", (⟨["s9"], "Anon", "", some 100, some 100, none⟩ : Entry)),
        ("U", (⟨["c2", "c1"], "Anon", "", some 100, some 100, none⟩ : Entry))] : Users).map
        Prod.fst).Nodup)
    ∧ ((disconnect [("X", (⟨["s9"], "Anon", "", some 100, some 100, none⟩ : Entry)),
          ("U", (⟨["c2", "c1"], "Anon", "", some 100, some 100, none⟩ : Entry))] "c1").2 = none
       ∧ lookupKey (disconnect [("X", (⟨["s9"], "Anon", "", some 100, some 100, none⟩ : Entry)),
          ("U", (⟨["c2", "c1"], "Anon", "", some 100, some 100, none⟩ : Entry))] "c1").1 "U"
         = some { (⟨["c2", "c1"], "Anon", "", some 100, some 100, none⟩ : Entry) with
                  socketIds := ["c2"] }
       ∧ isUserOnline (disconnect [("X", (⟨["s9"], "Anon", "", some 100, some 100, none⟩ : Entry)),
          ("U", (⟨["c2", "c1"], "Anon", "", some 100, some 100, none⟩ : Entry))] "c1").1 "U" = true
       ∧ (disconnect (disconnect [("X", (⟨["s9"], "Anon", "", some 100, some 100, none⟩ : Entry)),
          ("U", (⟨["c2", "c1"], "Anon", "", some 100, some 100, none⟩ : Entry))] "c1").1 "c2").2
         = some "U"
       ∧ lookupKey (disconnect (disconnect
            [("X", (⟨["s9"], "Anon", "", some 100, some 100, none⟩ : Entry)),
             ("U", (⟨["c2", "c1"], "Anon", "", some 100, some 100, none⟩ : Entry))] "c1").1
            "c2").1 "U" = none) :=
  ⟨by decide,
   c1_multi_connection_disconnect
     [("X", ⟨["s9"], "Anon", "", some 100, some 100, none⟩),
      ("U", ⟨["c2", "c1"], "Anon", "", some 100, some 100, none⟩)]
     "U" ⟨["c2", "c1"], "Anon", "", some 100, some 100, none⟩ "c1" "c2"
     (by decide) (by decide) (by decide) (by decide) (by decide)⟩

end SocketRelay
